import Mathlib

/-!
Verification of the `node` package of the ddsp repository: a single storage
Node of a sharded key-value cluster.  The Node holds a map from record IDs
to byte payloads, guarded by a mutex, and runs a background heartbeat loop
that can be stopped through an unbuffered channel.

The Go code is embedded shallowly:
* the `map[storage.RecordID][]byte` field becomes a function `K → Option Payload`;
* the methods `Put`, `Del`, `Get` become state transformers returning the
  updated `Node` together with the Go error value (`Option StorageErr`);
* the background loop `startHb` becomes a trace function driven by a
  schedule of channel-readiness observations (one per `select` execution);
* the mutex and the unbuffered `test` channel are modeled by a transition
  system `SysStep`: CRUD operations are atomic steps (the mutex serializes
  them), and a `Stop()` call is a sender blocked on the channel that can
  only complete by a rendezvous with a running heartbeat task.
-/

namespace DDSP

/-- Errors of the `storage` package used by the Node: `storage.ErrRecordExists`
and `storage.ErrRecordNotFound`. -/
inductive StorageErr where
  | ErrRecordExists
  | ErrRecordNotFound
deriving DecidableEq, Repr

/-- Byte payload of a record, the Go `[]byte` value. -/
abbrev Payload := List Nat

/-- Configuration of a Node, the `Config` struct of node.go: listen address
`Addr`, address `Router` of the Router service, heartbeat interval
`Heartbeat` (a duration, counted in nanoseconds), and the router client
handle `Client`.  Addresses (`storage.ServiceAddr`) and the client are
opaque, so they are type parameters `A` and `C`. -/
structure Config (A C : Type) where
  Addr : A
  Router : A
  Heartbeat : Nat
  Client : C

/-- The `Node` struct: its configuration `cfg` and the `data` map from
record IDs to payloads.  Record IDs (`storage.RecordID`) are opaque
comparable values, so they are a type parameter `K`.  The `lock` mutex and
the `test` channel are operational artifacts modeled by `SysStep` below. -/
structure Node (K A C : Type) where
  cfg : Config A C
  data : K → Option Payload

variable {K A C : Type}

/-- The constructor `New cfg`: a Node with the given configuration and an
empty data map (a fresh `make(map[storage.RecordID][]byte)`). -/
def New (cfg : Config A C) : Node K A C :=
  { cfg := cfg, data := fun _ => none }

variable [DecidableEq K]

/-- The method `Put(k, d)`: if no record is stored under `k`, store `d`
under `k` and return `nil`; otherwise return `storage.ErrRecordExists`. -/
def Node.Put (node : Node K A C) (k : K) (d : Payload) :
    Node K A C × Option StorageErr :=
  match node.data k with
  | none =>
      ({ node with data := fun k2 => if k2 = k then some d else node.data k2 },
       none)
  | some _ => (node, some .ErrRecordExists)

/-- The method `Del(k)`: if a record is stored under `k`, delete it and
return `nil`; otherwise return `storage.ErrRecordNotFound`. -/
def Node.Del (node : Node K A C) (k : K) :
    Node K A C × Option StorageErr :=
  match node.data k with
  | some _ =>
      ({ node with data := fun k2 => if k2 = k then none else node.data k2 },
       none)
  | none => (node, some .ErrRecordNotFound)

/-- The method `Get(k)`: if a record `d` is stored under `k`, return
`(d, nil)` without modifying the node; otherwise return
`(nil, storage.ErrRecordNotFound)`.  The first component is the node after
the call (the method only reads the map). -/
def Node.Get (node : Node K A C) (k : K) :
    Node K A C × Option Payload × Option StorageErr :=
  match node.data k with
  | some d => (node, some d, none)
  | none => (node, none, some .ErrRecordNotFound)

/-- Observable events of one heartbeat background task: a call
`Client.Heartbeat(router, self)` and a `time.Sleep(interval)`. -/
inductive HbEvent (A : Type) where
  | beat (router self : A)
  | sleep (interval : Nat)
deriving DecidableEq, Repr

/-- The background loop `startHb` launched by `Heartbeats()`, as the trace
of events of one run.  The loop repeatedly executes a `select` on the
`test` channel with a `default` branch; the schedule records, for each
iteration, whether a stop signal was pending (a `Stop()` sender blocked on
the channel) when that `select` executed.  A pending signal is accepted and
the loop returns; otherwise the iteration calls
`Client.Heartbeat(cfg.Router, cfg.Addr)` and sleeps for `cfg.Heartbeat`.
The schedule's length bounds the number of observed iterations. -/
def startHb (cfg : Config A C) : List Bool → List (HbEvent A)
  | [] => []
  | stopPending :: rest =>
      if stopPending then []
      else HbEvent.beat cfg.Router cfg.Addr ::
           HbEvent.sleep cfg.Heartbeat :: startHb cfg rest

/-- Global state of one Node with its concurrent callers: the node itself,
the number `hbActive` of running `startHb` tasks, and the number `blocked`
of `Stop()` calls currently blocked sending on the unbuffered `test`
channel. -/
structure SysState (K A C : Type) where
  node : Node K A C
  hbActive : Nat
  blocked : Nat

/-- Atomic transitions of the system.  `put`, `del` and `get` are CRUD
calls, made atomic by the `lock` mutex.  `beat` is one non-stopping
iteration of a running heartbeat task (its `select` takes the `default`
branch; the node's fields are only read).  `stopCall` is a new `Stop()`
call blocking on its channel send.  `rendezvous` is the unbuffered-channel
handshake: a running task's `select` receives from a blocked sender, the
`Stop()` call returns and the task returns.  A send on the unbuffered
`test` channel can complete in no other way, since `startHb` holds the only
receive. -/
inductive SysStep : SysState K A C → SysState K A C → Prop where
  | put (s : SysState K A C) (k : K) (d : Payload) :
      SysStep s { s with node := (s.node.Put k d).1 }
  | del (s : SysState K A C) (k : K) :
      SysStep s { s with node := (s.node.Del k).1 }
  | get (s : SysState K A C) (k : K) :
      SysStep s { s with node := (s.node.Get k).1 }
  | beat (s : SysState K A C) : 0 < s.hbActive → SysStep s s
  | stopCall (s : SysState K A C) :
      SysStep s { s with blocked := s.blocked + 1 }
  | rendezvous (s : SysState K A C) : 0 < s.hbActive → 0 < s.blocked →
      SysStep s { s with hbActive := s.hbActive - 1, blocked := s.blocked - 1 }

/-- Reachability: zero or more atomic transitions. -/
abbrev Reaches : SysState K A C → SysState K A C → Prop :=
  Relation.ReflTransGen SysStep

/-- Serialization of `n` concurrent `Put(k, pᵢ)` calls: under the table-wide
mutex the calls execute atomically in some total order, given here as the
list of their payloads; the result is the final node and the list of the
calls' return values in that order. -/
def racePuts (node : Node K A C) (k : K) :
    List Payload → Node K A C × List (Option StorageErr)
  | [] => (node, [])
  | p :: rest =>
      let r := node.Put k p
      let r2 := racePuts r.1 k rest
      (r2.1, r.2 :: r2.2)

/-- A concrete configuration used by the witnesses. -/
def cfg0 : Config Nat Unit := { Addr := 10, Router := 20, Heartbeat := 5, Client := () }

/-- A concrete fresh node used by the witnesses. -/
def node0 : Node Nat Nat Unit := New cfg0

/-- A concrete system state with one running heartbeat task and one blocked
`Stop()` call, used by the witnesses. -/
def s0 : SysState Nat Nat Unit := { node := node0, hbActive := 1, blocked := 1 }

/-- A concrete system state with no running heartbeat task and one blocked
`Stop()` call, used by the witnesses. -/
def sIdle : SysState Nat Nat Unit := { node := node0, hbActive := 0, blocked := 1 }

/-- Unfolding lemma: `Put` on an absent key inserts and returns `nil`. -/
theorem put_of_none (node : Node K A C) (k : K) (d : Payload)
    (h : node.data k = none) :
    node.Put k d =
      ({ node with data := fun k2 => if k2 = k then some d else node.data k2 },
       none) := by
  simp [Node.Put, h]

/-- Unfolding lemma: `Put` on a present key fails and leaves the node as is. -/
theorem put_of_some (node : Node K A C) (k : K) (d d0 : Payload)
    (h : node.data k = some d0) :
    node.Put k d = (node, some .ErrRecordExists) := by
  simp [Node.Put, h]

/-- Unfolding lemma: `Del` on a present key removes it and returns `nil`. -/
theorem del_of_some (node : Node K A C) (k : K) (d0 : Payload)
    (h : node.data k = some d0) :
    node.Del k =
      ({ node with data := fun k2 => if k2 = k then none else node.data k2 },
       none) := by
  simp [Node.Del, h]

/-- Unfolding lemma: `Del` on an absent key fails and leaves the node as is. -/
theorem del_of_none (node : Node K A C) (k : K)
    (h : node.data k = none) :
    node.Del k = (node, some .ErrRecordNotFound) := by
  simp [Node.Del, h]

omit [DecidableEq K] in
/-- Unfolding lemma: `Get` on a present key returns the payload. -/
theorem get_of_some (node : Node K A C) (k : K) (d0 : Payload)
    (h : node.data k = some d0) :
    node.Get k = (node, some d0, none) := by
  simp [Node.Get, h]

omit [DecidableEq K] in
/-- Unfolding lemma: `Get` on an absent key fails. -/
theorem get_of_none (node : Node K A C) (k : K)
    (h : node.data k = none) :
    node.Get k = (node, none, some .ErrRecordNotFound) := by
  simp [Node.Get, h]

/-- Inserted entry: after `Put` on an absent key, `k` maps to `d`. -/
theorem put_data_self (node : Node K A C) (k : K) (d : Payload)
    (h : node.data k = none) :
    (node.Put k d).1.data k = some d := by
  rw [put_of_none node k d h]
  simp

/-- A successful `Put` can only have happened on an absent key. -/
theorem put_ok_of_none (node : Node K A C) (k : K) (d : Payload)
    (h : (node.Put k d).2 = none) : node.data k = none := by
  rcases hd : node.data k with _ | d0
  · rfl
  · rw [put_of_some node k d d0 hd] at h
    exact absurd h (by simp)

/-- C1: for a key `k` absent from the table, `Put k p` succeeds and a
subsequent `Get k` returns exactly the payload `p`; for a key already
present with payload `d0`, `Put k p` fails with `ErrRecordExists` and
leaves the node, in particular the stored payload, unchanged. -/
theorem put_get_roundtrip_and_guard (node : Node K A C) (k : K) (p : Payload) :
    (node.data k = none →
      (node.Put k p).2 = none ∧
      ((node.Put k p).1.Get k).2 = (some p, none)) ∧
    (∀ d0, node.data k = some d0 →
      (node.Put k p).2 = some .ErrRecordExists ∧
      (node.Put k p).1 = node ∧
      (node.Put k p).1.data k = some d0) := by
  constructor
  · intro h
    simp [Node.Put, Node.Get, h]
  · intro d0 h
    simp [Node.Put, h]

/-- Closed instance of C1: both hypotheses discharged on concrete nodes. -/
theorem put_get_roundtrip_and_guard_witness :
    ((node0.Put 3 [7, 8]).2 = none ∧
      ((node0.Put 3 [7, 8]).1.Get 3).2 = (some [7, 8], none)) ∧
    (((node0.Put 3 [7, 8]).1.Put 3 [9]).2 = some .ErrRecordExists ∧
      ((node0.Put 3 [7, 8]).1.Put 3 [9]).1 = (node0.Put 3 [7, 8]).1 ∧
      ((node0.Put 3 [7, 8]).1.Put 3 [9]).1.data 3 = some [7, 8]) := by
  constructor
  · exact (put_get_roundtrip_and_guard node0 3 [7, 8]).1 rfl
  · exact (put_get_roundtrip_and_guard (node0.Put 3 [7, 8]).1 3 [9]).2 [7, 8]
      (by simp [node0, New, cfg0, Node.Put])

/-- C2: after a successful `Put k p1`, a second `Put k p2` fails with
`ErrRecordExists`, the node is unchanged by the failed call, and `Get k`
still returns `p1`. -/
theorem put_then_put_guard (node : Node K A C) (k : K) (p1 p2 : Payload)
    (h : (node.Put k p1).2 = none) :
    ((node.Put k p1).1.Put k p2).2 = some .ErrRecordExists ∧
    ((node.Put k p1).1.Put k p2).1 = (node.Put k p1).1 ∧
    (((node.Put k p1).1.Put k p2).1.Get k).2 = (some p1, none) := by
  have hk : node.data k = none := put_ok_of_none node k p1 h
  have h1 : (node.Put k p1).1.data k = some p1 := put_data_self node k p1 hk
  have h2 := put_of_some (node.Put k p1).1 k p2 p1 h1
  rw [h2, get_of_some (node.Put k p1).1 k p1 h1]
  exact ⟨rfl, rfl, rfl⟩

/-- Closed instance of C2: the hypothesis discharged on a concrete node. -/
theorem put_then_put_guard_witness :
    ((node0.Put 1 [2]).1.Put 1 [3]).2 = some .ErrRecordExists ∧
    ((node0.Put 1 [2]).1.Put 1 [3]).1 = (node0.Put 1 [2]).1 ∧
    (((node0.Put 1 [2]).1.Put 1 [3]).1.Get 1).2 = (some [2], none) :=
  put_then_put_guard node0 1 [2] [3] rfl

omit [DecidableEq K] in
/-- C3: `Get k` returns the stored payload with a `nil` error when `k` is
present, fails with `ErrRecordNotFound` when `k` is absent, and in both
cases leaves every entry of the node's table unchanged. -/
theorem get_semantics (node : Node K A C) (k : K) :
    (∀ k2, (node.Get k).1.data k2 = node.data k2) ∧
    (∀ d, node.data k = some d → (node.Get k).2 = (some d, none)) ∧
    (node.data k = none → (node.Get k).2 = (none, some .ErrRecordNotFound)) := by
  refine ⟨fun k2 => ?_, fun d h => ?_, fun h => ?_⟩
  · rcases hd : node.data k with _ | d <;> simp [Node.Get, hd]
  · simp [Node.Get, h]
  · simp [Node.Get, h]

/-- Closed instance of C3: both hypotheses discharged on concrete nodes. -/
theorem get_semantics_witness :
    ((node0.Put 4 [1]).1.Get 4).1.data 4 = (node0.Put 4 [1]).1.data 4 ∧
    ((node0.Put 4 [1]).1.Get 4).2 = (some [1], none) ∧
    (node0.Get 4).2 = (none, some .ErrRecordNotFound) :=
  ⟨(get_semantics (node0.Put 4 [1]).1 4).1 4,
   (get_semantics (node0.Put 4 [1]).1 4).2.1 [1]
     (by simp [node0, New, cfg0, Node.Put]),
   (get_semantics node0 4).2.2 rfl⟩

/-- C4: when `k` is present, `Del k` succeeds and removes the entry, so a
subsequent `Get k` fails with `ErrRecordNotFound`, and a subsequent
`Put k p2` succeeds with `Get k` then returning `p2`; when `k` is absent,
`Del k` fails with `ErrRecordNotFound`. -/
theorem del_semantics_and_reinsert (node : Node K A C) (k : K) (p2 : Payload) :
    (∀ d, node.data k = some d →
      (node.Del k).2 = none ∧
      (node.Del k).1.data k = none ∧
      ((node.Del k).1.Get k).2 = (none, some .ErrRecordNotFound) ∧
      ((node.Del k).1.Put k p2).2 = none ∧
      (((node.Del k).1.Put k p2).1.Get k).2 = (some p2, none)) ∧
    (node.data k = none → (node.Del k).2 = some .ErrRecordNotFound) := by
  constructor
  · intro d h
    have hd : (node.Del k).1.data k = none := by
      rw [del_of_some node k d h]
      simp
    have hp : ((node.Del k).1.Put k p2).1.data k = some p2 :=
      put_data_self (node.Del k).1 k p2 hd
    refine ⟨?_, hd, ?_, ?_, ?_⟩
    · rw [del_of_some node k d h]
    · rw [get_of_none (node.Del k).1 k hd]
    · rw [put_of_none (node.Del k).1 k p2 hd]
    · rw [get_of_some ((node.Del k).1.Put k p2).1 k p2 hp]
  · intro h
    rw [del_of_none node k h]

/-- Closed instance of C4: both hypotheses discharged on concrete nodes. -/
theorem del_semantics_and_reinsert_witness :
    (((node0.Put 2 [5]).1.Del 2).2 = none ∧
      ((node0.Put 2 [5]).1.Del 2).1.data 2 = none ∧
      (((node0.Put 2 [5]).1.Del 2).1.Get 2).2 = (none, some .ErrRecordNotFound) ∧
      (((node0.Put 2 [5]).1.Del 2).1.Put 2 [6]).2 = none ∧
      ((((node0.Put 2 [5]).1.Del 2).1.Put 2 [6]).1.Get 2).2 = (some [6], none)) ∧
    (node0.Del 2).2 = some .ErrRecordNotFound :=
  ⟨(del_semantics_and_reinsert (node0.Put 2 [5]).1 2 [6]).1 [5]
      (by simp [node0, New, cfg0, Node.Put]),
   (del_semantics_and_reinsert node0 2 [6]).2 rfl⟩

/-- C7: an empty payload is a valid value: `Put k []` succeeds on an absent
key, a subsequent `Get k` returns the stored empty payload, and that result
is distinguishable from the absent case, where `Get k` fails with
`ErrRecordNotFound`. -/
theorem empty_payload_valid (node : Node K A C) (k : K)
    (h : node.data k = none) :
    (node.Put k []).2 = none ∧
    ((node.Put k []).1.Get k).2 = (some [], none) ∧
    (node.Get k).2 = (none, some .ErrRecordNotFound) ∧
    ((node.Put k []).1.Get k).2 ≠ (node.Get k).2 := by
  have hp : (node.Put k []).1.data k = some [] := put_data_self node k [] h
  refine ⟨?_, ?_, ?_, ?_⟩
  · rw [put_of_none node k [] h]
  · rw [get_of_some (node.Put k []).1 k [] hp]
  · rw [get_of_none node k h]
  · rw [get_of_some (node.Put k []).1 k [] hp, get_of_none node k h]
    simp

/-- Closed instance of C7: the hypothesis discharged on a concrete node. -/
theorem empty_payload_valid_witness :
    (node0.Put 9 []).2 = none ∧
    ((node0.Put 9 []).1.Get 9).2 = (some [], none) ∧
    (node0.Get 9).2 = (none, some .ErrRecordNotFound) ∧
    ((node0.Put 9 []).1.Get 9).2 ≠ (node0.Get 9).2 :=
  empty_payload_valid node0 9 rfl

/-- C5: characterization of one run of the heartbeat loop.  Each iteration
checks the stop signal first; only when none is pending does it call
`Client.Heartbeat(cfg.Router, cfg.Addr)` and then sleep for
`cfg.Heartbeat`; a pending stop signal ends the run with no further
heartbeat call, as the second conjunct states for a signal pending at the
very first check. -/
theorem heartbeat_loop_trace (cfg : Config A C) (sched : List Bool) :
    startHb cfg sched =
      List.flatten ((sched.takeWhile (fun b => !b)).map
        (fun _ => [HbEvent.beat cfg.Router cfg.Addr,
                   HbEvent.sleep cfg.Heartbeat])) ∧
    startHb cfg (true :: sched) = [] := by
  constructor
  · induction sched with
    | nil => rfl
    | cons b rest ih =>
      cases b
      · simp [startHb, List.takeWhile_cons, ih]
      · simp [startHb, List.takeWhile_cons]
  · rfl

/-- C6: a `Stop()` call returns only through the channel rendezvous, which
requires a running heartbeat task and terminates it; and from any state
with no active heartbeat task, every reachable state still has none and no
blocked `Stop()` call has returned, so `Stop()` blocks indefinitely. -/
theorem stop_blocks_without_heartbeat_task :
    (∀ s s2 : SysState K A C, SysStep s s2 → s2.blocked < s.blocked →
      0 < s.hbActive ∧ s2.hbActive = s.hbActive - 1) ∧
    (∀ s s2 : SysState K A C, Reaches s s2 → s.hbActive = 0 →
      s2.hbActive = 0 ∧ s.blocked ≤ s2.blocked) := by
  constructor
  · intro s s2 hstep hlt
    cases hstep with
    | put k d => exact absurd hlt (lt_irrefl _)
    | del k => exact absurd hlt (lt_irrefl _)
    | get k => exact absurd hlt (lt_irrefl _)
    | beat h1 => exact absurd hlt (lt_irrefl _)
    | stopCall => exact absurd hlt (by simp)
    | rendezvous h1 h2 => exact ⟨h1, rfl⟩
  · intro s s2 hr h0
    induction hr with
    | refl => exact ⟨h0, le_refl _⟩
    | tail hr2 hstep ih =>
      obtain ⟨hb0, hble⟩ := ih
      cases hstep with
      | put k d => exact ⟨hb0, hble⟩
      | del k => exact ⟨hb0, hble⟩
      | get k => exact ⟨hb0, hble⟩
      | beat h1 => exact absurd h1 (by simp [hb0])
      | stopCall => exact ⟨hb0, le_trans hble (Nat.le_succ _)⟩
      | rendezvous h1 h2 => exact absurd h1 (by simp [hb0])

/-- Closed instance of C6: the rendezvous from `s0` decrements `blocked`
and requires the running task; from the idle state `sIdle` the reflexive
reachability keeps the task count at zero and the stopper blocked. -/
theorem stop_blocks_without_heartbeat_task_witness :
    (0 < s0.hbActive ∧
      ({ s0 with hbActive := s0.hbActive - 1, blocked := s0.blocked - 1 } :
        SysState Nat Nat Unit).hbActive = s0.hbActive - 1) ∧
    (sIdle.hbActive = 0 ∧ sIdle.blocked ≤ sIdle.blocked) :=
  ⟨(stop_blocks_without_heartbeat_task).1 s0 _
      (SysStep.rendezvous s0 Nat.zero_lt_one Nat.zero_lt_one) Nat.zero_lt_one,
   (stop_blocks_without_heartbeat_task).2 sIdle sIdle
      Relation.ReflTransGen.refl rfl⟩

/-- Configuration framing for `Put`. -/
theorem put_cfg (node : Node K A C) (k : K) (p : Payload) :
    (node.Put k p).1.cfg = node.cfg := by
  rcases hd : node.data k with _ | d
  · rw [put_of_none node k p hd]
  · rw [put_of_some node k p d hd]

/-- Configuration framing for `Del`. -/
theorem del_cfg (node : Node K A C) (k : K) :
    (node.Del k).1.cfg = node.cfg := by
  rcases hd : node.data k with _ | d
  · rw [del_of_none node k hd]
  · rw [del_of_some node k d hd]

omit [DecidableEq K] in
/-- Configuration framing for `Get`. -/
theorem get_cfg (node : Node K A C) (k : K) :
    (node.Get k).1.cfg = node.cfg := by
  rcases hd : node.data k with _ | d
  · rw [get_of_none node k hd]
  · rw [get_of_some node k d hd]

/-- C8: the configuration is immutable after `New`: `Put`, `Del` and `Get`
leave `cfg` unchanged, and so does every atomic transition of the system,
in particular the heartbeat iterations, `Stop()` calls and the stop
rendezvous. -/
theorem config_immutable (node : Node K A C) (k : K) (p : Payload) :
    (node.Put k p).1.cfg = node.cfg ∧
    (node.Del k).1.cfg = node.cfg ∧
    (node.Get k).1.cfg = node.cfg ∧
    (∀ s s2 : SysState K A C, SysStep s s2 → s2.node.cfg = s.node.cfg) := by
  refine ⟨put_cfg node k p, del_cfg node k, get_cfg node k, ?_⟩
  intro s s2 hstep
  cases hstep with
  | put k2 d => exact put_cfg s.node k2 d
  | del k2 => exact del_cfg s.node k2
  | get k2 => exact get_cfg s.node k2
  | beat h1 => rfl
  | stopCall => rfl
  | rendezvous h1 h2 => rfl

/-- Closed instance of C8: a `Stop()` call step leaves the configuration of
the concrete state `s0` unchanged. -/
theorem config_immutable_witness :
    ({ s0 with blocked := s0.blocked + 1 } :
      SysState Nat Nat Unit).node.cfg = s0.node.cfg :=
  (config_immutable node0 0 []).2.2.2 s0 _ (SysStep.stopCall s0)

/-- Unfolding lemma for one serialized `Put` in a race. -/
theorem racePuts_cons (node : Node K A C) (k : K) (p : Payload)
    (ps : List Payload) :
    racePuts node k (p :: ps) =
      ((racePuts (node.Put k p).1 k ps).1,
       (node.Put k p).2 :: (racePuts (node.Put k p).1 k ps).2) := rfl

/-- When `k` is already present, every serialized `Put` in a race fails
with `ErrRecordExists` and the node is unchanged. -/
theorem racePuts_of_some (node : Node K A C) (k : K) (d0 : Payload)
    (h : node.data k = some d0) (ps : List Payload) :
    racePuts node k ps =
      (node, List.replicate ps.length (some .ErrRecordExists)) := by
  induction ps with
  | nil => rfl
  | cons p rest ih =>
    rw [racePuts_cons, put_of_some node k p d0 h]
    rw [show ((node, some StorageErr.ErrRecordExists) :
        Node K A C × Option StorageErr).1 = node from rfl]
    rw [ih]
    rfl

/-- Helper: the success marker `none` does not occur among failures. -/
theorem count_none_replicate (n : Nat) :
    (List.replicate n (some StorageErr.ErrRecordExists)).count
      (none : Option StorageErr) = 0 := by
  induction n with
  | zero => rfl
  | succ m ih => simp [List.replicate_succ, List.count_cons, ih]

/-- Helper: counting the failure marker in a block of failures. -/
theorem count_exists_replicate (n : Nat) :
    (List.replicate n (some StorageErr.ErrRecordExists)).count
      (some StorageErr.ErrRecordExists) = n := by
  induction n with
  | zero => rfl
  | succ m ih => simp [List.replicate_succ, List.count_cons, ih]

/-- C9: serializing `N = 1 + ps.length` concurrent `Put` calls for the same
absent key, in any order, yields exactly one success (the first in the
serialization order) and `N - 1` failures with `ErrRecordExists`, and the
final value under `k` is the successful caller's payload. -/
theorem concurrent_put_race (node : Node K A C) (k : K) (p : Payload)
    (ps : List Payload) (h : node.data k = none) :
    (racePuts node k (p :: ps)).2 =
      none :: List.replicate ps.length (some .ErrRecordExists) ∧
    (racePuts node k (p :: ps)).2.count none = 1 ∧
    (racePuts node k (p :: ps)).2.count (some .ErrRecordExists) = ps.length ∧
    (racePuts node k (p :: ps)).1.data k = some p := by
  have h1 : (node.Put k p).1.data k = some p := put_data_self node k p h
  have h2 := racePuts_of_some (node.Put k p).1 k p h1 ps
  have hsnd : (node.Put k p).2 = none := by rw [put_of_none node k p h]
  have hr : racePuts node k (p :: ps) =
      ((node.Put k p).1,
       none :: List.replicate ps.length (some .ErrRecordExists)) := by
    rw [racePuts_cons, h2, hsnd]
  refine ⟨by rw [hr], ?_, ?_, by rw [hr]; exact h1⟩
  · rw [hr]
    simp [List.count_cons, count_none_replicate]
  · rw [hr]
    simp [List.count_cons, count_exists_replicate]

/-- Closed instance of C9: three racing `Put` calls on a fresh node. -/
theorem concurrent_put_race_witness :
    (racePuts node0 0 [[1], [2], [3]]).2 =
      none :: List.replicate 2 (some .ErrRecordExists) ∧
    (racePuts node0 0 [[1], [2], [3]]).2.count none = 1 ∧
    (racePuts node0 0 [[1], [2], [3]]).2.count (some .ErrRecordExists) = 2 ∧
    (racePuts node0 0 [[1], [2], [3]]).1.data 0 = some [1] :=
  concurrent_put_race node0 0 [1] [[2], [3]] rfl

/-- C10: operations on a key `k` do not disturb the entry of any distinct
key `k2`: `Put`, `Del` and `Get` on `k` leave `data k2` unchanged, present
with the same payload or still absent. -/
theorem frame_distinct_keys (node : Node K A C) (k k2 : K) (p : Payload)
    (h : k ≠ k2) :
    (node.Put k p).1.data k2 = node.data k2 ∧
    (node.Del k).1.data k2 = node.data k2 ∧
    (node.Get k).1.data k2 = node.data k2 := by
  refine ⟨?_, ?_, ?_⟩
  · rcases hd : node.data k with _ | d
    · rw [put_of_none node k p hd]
      simp [Ne.symm h]
    · rw [put_of_some node k p d hd]
  · rcases hd : node.data k with _ | d
    · rw [del_of_none node k hd]
    · rw [del_of_some node k d hd]
      simp [Ne.symm h]
  · rcases hd : node.data k with _ | d
    · rw [get_of_none node k hd]
    · rw [get_of_some node k d hd]

/-- Closed instance of C10: operations on key 0 leave key 1 unchanged on a
node where key 1 holds a payload. -/
theorem frame_distinct_keys_witness :
    (((node0.Put 1 [9]).1.Put 0 [4]).1.data 1 = (node0.Put 1 [9]).1.data 1 ∧
     ((node0.Put 1 [9]).1.Del 0).1.data 1 = (node0.Put 1 [9]).1.data 1 ∧
     ((node0.Put 1 [9]).1.Get 0).1.data 1 = (node0.Put 1 [9]).1.data 1) :=
  frame_distinct_keys (node0.Put 1 [9]).1 0 1 [4] (by decide)

end DDSP
